import Mathlib

/-!
Shallow embedding of the YTD YouTube-download service (src/main.py) and
verification of its specification claims.

The Python module is embedded as follows: strings become `List Char`; the
regex searches of `validate_youtube_url` become explicit scans over all
suffixes of the character list (`firstSome`), with each pattern of the
source — a literal followed by either exactly eleven identifier-class
characters or a non-empty greedy run of them — modelled directly by
`matchVideoAt` and `matchPlaylistAt`; exceptions become an explicit `Exc`
error type carried in `Except`; the opaque `yt_dlp` collaborator becomes a
function parameter (`Collab`) supplied by the caller of the model; the
loosely-typed metadata dictionaries returned by the collaborator become
`Info`/`Entry` records with optional fields.
-/

namespace YTD

/-- The exception taxonomy that matters to the program: Python `ValueError`,
`RuntimeError`, and every other exception class (e.g. `IndexError` or
collaborator-internal errors), each carrying its `str(e)` message. -/
inductive Exc where
  | valueError (msg : String)
  | runtimeError (msg : String)
  | otherError (msg : String)
deriving DecidableEq

/-- The message of an exception, Python `str(e)`. -/
def excMsg : Exc → String
  | .valueError m => m
  | .runtimeError m => m
  | .otherError m => m

instance {ε α : Type} [DecidableEq ε] [DecidableEq α] : DecidableEq (Except ε α) :=
  fun a b =>
    match a, b with
    | .ok x, .ok y =>
      if h : x = y then .isTrue (by rw [h]) else .isFalse (by intro hc; cases hc; exact h rfl)
    | .ok _, .error _ => .isFalse (by intro hc; cases hc)
    | .error _, .ok _ => .isFalse (by intro hc; cases hc)
    | .error x, .error y =>
      if h : x = y then .isTrue (by rw [h]) else .isFalse (by intro hc; cases hc; exact h rfl)

/-- The whitespace characters removed by Python `str.strip()` (ASCII range:
space, tab, newline, carriage return, vertical tab, form feed). -/
def pyIsSpace (c : Char) : Bool :=
  c == ' ' || c == '\t' || c == '\n' || c == '\r' || c == '\x0B' || c == '\x0C'

/-- Python `str.strip()`: remove leading and trailing whitespace. -/
def pyStrip (s : List Char) : List Char :=
  ((s.dropWhile pyIsSpace).reverse.dropWhile pyIsSpace).reverse

/-- Python `str.lower()` restricted to the ASCII letters that the program
compares against (`"audio"`, `"video"`). -/
def pyLower (s : List Char) : List Char :=
  s.map Char.toLower

/-- Membership in the regex character class `[A-Za-z0-9_-]` used by every
ID-capturing group of `validate_youtube_url`. -/
def isClassChar (c : Char) : Bool :=
  ('A' ≤ c && c ≤ 'Z') || ('a' ≤ c && c ≤ 'z') || ('0' ≤ c && c ≤ '9') ||
    c == '_' || c == '-'

/-- Test whether the literal `lit` matches at the head of `s` (the
anchored part of a `re.search` attempt at one position). -/
def litHead : List Char → List Char → Bool
  | [], _ => true
  | _ :: _, [] => false
  | a :: l, b :: s => a == b && litHead l s

/-- The `re.search` position scan: try the matcher `f` at every start
position of the string (every suffix, in order), first success wins. -/
def firstSome {α : Type} (f : List Char → Option α) : List Char → Option α
  | [] => f []
  | a :: s =>
    match f (a :: s) with
    | some r => some r
    | none => firstSome f s

/-- Substring containment: `re.search(lit, s) is not None` for a regex
that is a literal. -/
def containsSub (sub s : List Char) : Bool :=
  (firstSome (fun t => if litHead sub t = true then some t else none) s).isSome

/-- The host gate `re.search(r"(youtube\.com|youtu\.be)", url)`. -/
def hostOk (s : List Char) : Bool :=
  containsSub "youtube.com".data s || containsSub "youtu.be".data s

/-- Literal part of the first video pattern
`(?:youtube\.com/watch\?v=)([A-Za-z0-9_-]{11})`. -/
def watchLit : List Char := "youtube.com/watch?v=".data

/-- Literal part of the second video pattern
`(?:youtu\.be/)([A-Za-z0-9_-]{11})`. -/
def beLit : List Char := "youtu.be/".data

/-- Literal part of the third video pattern
`(?:youtube\.com/shorts/)([A-Za-z0-9_-]{11})`. -/
def shortsLit : List Char := "youtube.com/shorts/".data

/-- The `video_patterns` list, in source order. -/
def videoPatterns : List (List Char) := [watchLit, beLit, shortsLit]

/-- Literal part of the playlist pattern
`(?:youtube\.com/playlist\?list=)([A-Za-z0-9_-]+)`. -/
def playlistLit : List Char := "youtube.com/playlist?list=".data

/-- One attempt of a video pattern at one position: the literal must match,
followed by exactly eleven class characters, which form the captured ID. -/
def matchVideoAt (lit s : List Char) : Option (List Char) :=
  if litHead lit s = true then
    if ((s.drop lit.length).take 11).length = 11 ∧
        ((s.drop lit.length).take 11).all isClassChar = true then
      some ((s.drop lit.length).take 11)
    else none
  else none

/-- One attempt of the playlist pattern at one position: the literal must
match, followed by a non-empty greedy run of class characters (the ID). -/
def matchPlaylistAt (s : List Char) : Option (List Char) :=
  if litHead playlistLit s = true then
    if (s.drop playlistLit.length).takeWhile isClassChar = [] then none
    else some ((s.drop playlistLit.length).takeWhile isClassChar)
  else none

/-- The `for pattern in video_patterns` loop: first pattern whose search
succeeds wins. -/
def findFirstPattern : List (List Char) → List Char → Option (List Char)
  | [], _ => none
  | p :: ps, s =>
    match firstSome (matchVideoAt p) s with
    | some r => some r
    | none => findFirstPattern ps s

/-- Successful result of `validate_youtube_url`: the dict
`{"type": ..., "id": ..., "clean_url": ...}`. -/
structure ValidatedUrl where
  type : String
  id : List Char
  clean_url : List Char
deriving DecidableEq

/-- Function `validate_youtube_url` from src/main.py: reject empty (post-strip)
input, require a host marker, then try the three video patterns in order
and finally the playlist pattern. -/
def validate_youtube_url (url : List Char) : Except Exc ValidatedUrl :=
  if pyStrip url = [] then
    .error (.valueError "URL must be a non-empty string")
  else if hostOk (pyStrip url) = true then
    match findFirstPattern videoPatterns (pyStrip url) with
    | some vid =>
      .ok ⟨"video", vid, "https://www.youtube.com/watch?v=".data ++ vid⟩
    | none =>
      match firstSome matchPlaylistAt (pyStrip url) with
      | some pid =>
        .ok ⟨"playlist", pid, "https://www.youtube.com/playlist?list=".data ++ pid⟩
      | none => .error (.valueError "Invalid YouTube URL format")
  else .error (.valueError "Not a valid YouTube URL")

/-- The `ydl_opts` dictionaries. -/
structure YdlOpts where
  quiet : Bool
  noplaylist : Bool
  format : String
  extract_flat : Bool
  skip_download : Bool
deriving DecidableEq

/-- Options built for `mode == "audio"`. -/
def audioOpts : YdlOpts :=
  { quiet := true, noplaylist := true, format := "bestaudio/best",
    extract_flat := false, skip_download := true }

/-- Options built for `mode == "video"`. -/
def videoOpts : YdlOpts :=
  { quiet := true, noplaylist := true, format := "best[ext=mp4]/best",
    extract_flat := false, skip_download := true }

/-- The `if mode == "audio" / elif mode == "video" / else raise` ladder,
as an option: `none` means the bad-mode `ValueError` is raised. -/
def optsFor (mode : List Char) : Option YdlOpts :=
  if mode = "audio".data then some audioOpts
  else if mode = "video".data then some videoOpts
  else none

/-- One entry of a playlist-shaped collaborator result: a loosely-typed
dict of which the program reads the optional keys `url` and `title`. -/
structure Entry where
  url : Option (List Char)
  title : Option (List Char)
deriving DecidableEq

/-- A collaborator (`ydl.extract_info`) result: a loosely-typed dict of
which the program reads the optional keys `entries`, `url` and `title`. -/
structure Info where
  entries : Option (List Entry)
  url : Option (List Char)
  title : Option (List Char)
deriving DecidableEq

/-- The opaque extraction collaborator: `yt_dlp.YoutubeDL(opts)` together
with `extract_info(url, download=False)`. It may raise any exception. -/
def Collab : Type := YdlOpts → List Char → Except Exc Info

/-- Successful result of `extract_download_link`: the dict
`{"title": ..., "download_url": ...}`. -/
structure ExtractResult where
  title : List Char
  download_url : List Char
deriving DecidableEq

/-- The tail of the try-block once a metadata dict has been selected:
`download_url = info.get("url")`, `title = info.get("title", "video")`,
raise `RuntimeError` when the url is absent or falsy (empty). -/
def entryResult (u t : Option (List Char)) : Except Exc ExtractResult :=
  match u with
  | none => .error (.runtimeError "Could not extract download URL")
  | some du =>
    if du = [] then .error (.runtimeError "Could not extract download URL")
    else .ok ⟨t.getD "video".data, du⟩

/-- The step `if "entries" in info: info = info["entries"][0]` followed by
the field reads: indexing an empty entries list raises Python `IndexError`. -/
def processInfo (info : Info) : Except Exc ExtractResult :=
  match info.entries with
  | some [] => .error (.otherError "list index out of range")
  | some (e :: _) => entryResult e.url e.title
  | none => entryResult info.url info.title

/-- The metadata dict the field reads are taken from: the first entry when
the result is playlist-shaped (if one exists), the result itself otherwise. -/
def selEntry (info : Info) : Option Entry :=
  match info.entries with
  | some [] => none
  | some (e :: _) => some e
  | none => some ⟨info.url, info.title⟩

/-- The body of the `try:` block of `extract_download_link`: validate the
URL, build mode options, call the collaborator on the clean URL, unwrap. -/
def extract_body (collab : Collab) (url mode : List Char) :
    Except Exc ExtractResult :=
  match validate_youtube_url url with
  | .error e => .error e
  | .ok v =>
    match optsFor mode with
    | none => .error (.valueError "Mode must be \x27audio\x27 or \x27video\x27")
    | some opts =>
      match collab opts v.clean_url with
      | .error e => .error e
      | .ok info => processInfo info

/-- The catch-all `except Exception as e: raise RuntimeError(str(e))` of
`extract_download_link`: successes pass through, every exception is
re-raised as a `RuntimeError` carrying the same message. -/
def rewrap : Except Exc ExtractResult → Except Exc ExtractResult
  | .ok r => .ok r
  | .error e => .error (.runtimeError (excMsg e))

/-- Function `extract_download_link` from src/main.py: the try-block body
wrapped in the catch-all. -/
def extract_download_link (collab : Collab) (url mode : List Char) :
    Except Exc ExtractResult :=
  rewrap (extract_body collab url mode)

/-- The request body of `POST /download`. -/
structure DownloadRequest where
  url : List Char
  mode : List Char
deriving DecidableEq

/-- What the handler sends back: the success dict, or an `HTTPException`
with a status code and a detail message. -/
inductive Response where
  | success (title download_url : List Char)
  | httpError (status : Nat) (detail : String)
deriving DecidableEq

/-- Function `download_endpoint` from src/main.py: call `extract_download_link` with
the lowercased mode; `except ValueError` becomes status 400,
`except RuntimeError` becomes status 500, any other exception propagates
out of the handler (`Except.error`). -/
def download_endpoint (collab : Collab) (req : DownloadRequest) :
    Except Exc Response :=
  match extract_download_link collab req.url (pyLower req.mode) with
  | .ok r => .ok (.success r.title r.download_url)
  | .error (.valueError m) => .ok (.httpError 400 m)
  | .error (.runtimeError m) => .ok (.httpError 500 m)
  | .error e => .error e

/-- A collaborator that fails loudly if it is ever consulted; used to
exhibit runs in which the collaborator plays no part. -/
def collabUnreachable : Collab :=
  fun _ _ => .error (.otherError "collaborator invoked")

/-- A collaborator whose result has no `entries`, no `url` and no `title`. -/
def collabBare : Collab :=
  fun _ _ => .ok ⟨none, none, none⟩

/-- A collaborator returning a two-entry playlist-shaped result. -/
def collabTwoEntries : Collab :=
  fun _ _ =>
    .ok ⟨some [⟨some "http://cdn/a".data, some "first".data⟩,
               ⟨some "http://cdn/b".data, some "second".data⟩],
         none, none⟩

/-- Predicate: `l` is a prefix of `s`. -/
def pfx (l s : List Char) : Prop := ∃ t, l ++ t = s

/-- Predicate: `t` is a suffix of `s`. -/
def sfx (t s : List Char) : Prop := ∃ u, u ++ t = s

theorem sfx_refl (l : List Char) : sfx l l := ⟨[], rfl⟩

theorem sfx_cons {t s : List Char} {a : Char} (h : sfx t s) : sfx t (a :: s) := by
  obtain ⟨u, hu⟩ := h
  exact ⟨a :: u, by rw [List.cons_append, hu]⟩

theorem sfx_nil {t : List Char} (h : sfx t []) : t = [] := by
  obtain ⟨u, hu⟩ := h
  exact (List.append_eq_nil.mp hu).2

theorem sfx_cons_cases {t s : List Char} {a : Char} (h : sfx t (a :: s)) :
    t = a :: s ∨ sfx t s := by
  obtain ⟨u, hu⟩ := h
  cases u with
  | nil => exact Or.inl hu
  | cons b u =>
    rw [List.cons_append] at hu
    injection hu with _ h2
    exact Or.inr ⟨u, h2⟩

theorem sfx_mem {t s : List Char} {c : Char} (h : sfx t s) (hc : c ∈ t) : c ∈ s := by
  obtain ⟨u, hu⟩ := h
  rw [← hu]
  exact List.mem_append_right u hc

theorem sfx_append_right {l s r : List Char} (h : sfx l s) : sfx (l ++ r) (s ++ r) := by
  obtain ⟨u, hu⟩ := h
  exact ⟨u, by rw [← List.append_assoc, hu]⟩

theorem pfx_mem {l s : List Char} {c : Char} (h : pfx l s) (hc : c ∈ l) : c ∈ s := by
  obtain ⟨t, ht⟩ := h
  rw [← ht]
  exact List.mem_append_left t hc

theorem sfx_append_cases {t pre id : List Char} (h : sfx t (pre ++ id)) :
    sfx t id ∨ ∃ c, sfx c pre ∧ t = c ++ id := by
  induction pre with
  | nil =>
    rw [List.nil_append] at h
    exact Or.inl h
  | cons a p ih =>
    rw [List.cons_append] at h
    rcases sfx_cons_cases h with h1 | h1
    · exact Or.inr ⟨a :: p, sfx_refl _, by rw [h1, List.cons_append]⟩
    · rcases ih h1 with h2 | ⟨c, hc, rfl⟩
      · exact Or.inl h2
      · exact Or.inr ⟨c, sfx_cons hc, rfl⟩

theorem sfx_iff_mem_tails (c pre : List Char) : sfx c pre ↔ c ∈ pre.tails := by
  induction pre with
  | nil =>
    show sfx c [] ↔ c ∈ [[]]
    rw [List.mem_singleton]
    constructor
    · exact sfx_nil
    · rintro rfl; exact sfx_refl []
  | cons a p ih =>
    rw [List.tails_cons, List.mem_cons, ← ih]
    constructor
    · exact sfx_cons_cases
    · rintro (rfl | h)
      · exact sfx_refl _
      · exact sfx_cons h

theorem litHead_iff (l s : List Char) : litHead l s = true ↔ pfx l s := by
  induction l generalizing s with
  | nil =>
    simp only [litHead, pfx, List.nil_append, true_iff]
    exact ⟨s, rfl⟩
  | cons a l ih =>
    cases s with
    | nil =>
      simp only [litHead, pfx]
      constructor
      · intro h; cases h
      · rintro ⟨t, ht⟩; cases ht
    | cons b s =>
      simp only [litHead, Bool.and_eq_true, beq_iff_eq, ih, pfx]
      constructor
      · rintro ⟨rfl, t, rfl⟩
        exact ⟨t, rfl⟩
      · rintro ⟨t, ht⟩
        rw [List.cons_append] at ht
        injection ht with h1 h2
        exact ⟨h1, t, h2⟩

theorem litHead_trans {a b c : List Char} (h1 : litHead a b = true)
    (h2 : litHead b c = true) : litHead a c = true := by
  obtain ⟨u, hu⟩ := (litHead_iff a b).mp h1
  obtain ⟨v, hv⟩ := (litHead_iff b c).mp h2
  exact (litHead_iff a c).mpr ⟨u ++ v, by rw [← List.append_assoc, hu, hv]⟩

theorem litHead_append_right {sub t r : List Char} (h : litHead sub t = true) :
    litHead sub (t ++ r) = true := by
  obtain ⟨u, hu⟩ := (litHead_iff sub t).mp h
  exact (litHead_iff sub (t ++ r)).mpr ⟨u ++ r, by rw [← List.append_assoc, hu]⟩

theorem pfx_append_or {l c id : List Char} (h : pfx l (c ++ id)) :
    pfx l c ∨ pfx c l := by
  obtain ⟨t, ht⟩ := h
  rcases List.append_eq_append_iff.mp ht with ⟨w, h1, _⟩ | ⟨w, h1, _⟩
  · exact Or.inl ⟨w, h1.symm⟩
  · exact Or.inr ⟨w, h1.symm⟩

theorem firstSome_eq_none_of {α : Type} (f : List Char → Option α) (s : List Char)
    (h : ∀ t, sfx t s → f t = none) : firstSome f s = none := by
  induction s with
  | nil => simpa [firstSome] using h [] (sfx_refl [])
  | cons a s ih =>
    have h0 : f (a :: s) = none := h (a :: s) (sfx_refl _)
    unfold firstSome
    rw [h0]
    exact ih (fun t ht => h t (sfx_cons ht))

theorem firstSome_sfx_of_some {α : Type} (f : List Char → Option α) (s : List Char)
    (r : α) (h : firstSome f s = some r) : ∃ t, sfx t s ∧ f t = some r := by
  induction s with
  | nil => exact ⟨[], sfx_refl [], by simpa [firstSome] using h⟩
  | cons a s ih =>
    unfold firstSome at h
    cases hf : f (a :: s) with
    | some r' =>
      rw [hf] at h
      injection h with h'
      exact ⟨a :: s, sfx_refl _, by rw [hf, h']⟩
    | none =>
      rw [hf] at h
      obtain ⟨t, ht, hft⟩ := ih h
      exact ⟨t, sfx_cons ht, hft⟩

theorem firstSome_isSome_of {α : Type} (f : List Char → Option α) {s t : List Char}
    (hts : sfx t s) {r : α} (hf : f t = some r) : (firstSome f s).isSome = true := by
  induction s with
  | nil =>
    rw [sfx_nil hts] at hf
    simp [firstSome, hf]
  | cons a s ih =>
    unfold firstSome
    rcases sfx_cons_cases hts with rfl | h'
    · rw [hf]; rfl
    · cases hfa : f (a :: s) with
      | some r' => rfl
      | none => exact ih h'

theorem class_not_space {c : Char} (h : isClassChar c = true) : pyIsSpace c = false := by
  cases hs : pyIsSpace c
  · rfl
  · exfalso
    simp only [pyIsSpace, Bool.or_eq_true, beq_iff_eq] at hs
    rcases hs with ((((rfl | rfl) | rfl) | rfl) | rfl) | rfl <;>
      exact absurd h (by decide)

theorem takeWhile_eq_self_of (p : Char → Bool) {l : List Char}
    (h : ∀ c ∈ l, p c = true) : l.takeWhile p = l := by
  induction l with
  | nil => rfl
  | cons a t ih =>
    rw [List.takeWhile_cons, h a (List.mem_cons_self a t)]
    simp only [if_pos]
    rw [ih (fun c hc => h c (List.mem_cons_of_mem a hc))]

theorem dropWhile_cons_of_neg {p : Char → Bool} {a : Char} {l : List Char}
    (h : p a = false) : List.dropWhile p (a :: l) = a :: l := by
  rw [List.dropWhile_cons, h]
  simp only [Bool.false_eq_true, if_false]

theorem dropWhile_sfx (p : Char → Bool) (l : List Char) : sfx (l.dropWhile p) l := by
  induction l with
  | nil => exact sfx_refl []
  | cons a t ih =>
    rw [List.dropWhile_cons]
    by_cases h : p a = true
    · rw [if_pos h]
      exact sfx_cons ih
    · rw [if_neg h]
      exact sfx_refl _

theorem pyStrip_decomp (l : List Char) :
    ∃ front back, front ++ (pyStrip l ++ back) = l := by
  obtain ⟨f1, hf1⟩ := dropWhile_sfx pyIsSpace l
  obtain ⟨f2, hf2⟩ := dropWhile_sfx pyIsSpace (l.dropWhile pyIsSpace).reverse
  refine ⟨f1, f2.reverse, ?_⟩
  have hd : l.dropWhile pyIsSpace = pyStrip l ++ f2.reverse := by
    have h := congrArg List.reverse hf2
    rw [List.reverse_append, List.reverse_reverse] at h
    exact h.symm
  rw [← hd]
  exact hf1

theorem pyStrip_append_of (pre id : List Char)
    (hpre : match pre with | [] => False | a :: _ => pyIsSpace a = false)
    (hne : id ≠ []) (hcls : ∀ c ∈ id, isClassChar c = true) :
    pyStrip (pre ++ id) = pre ++ id := by
  cases pre with
  | nil => exact hpre.elim
  | cons a p =>
    have ha : pyIsSpace a = false := hpre
    unfold pyStrip
    rw [List.cons_append, dropWhile_cons_of_neg ha, ← List.cons_append]
    cases hid : id.reverse with
    | nil => exact absurd (List.reverse_eq_nil_iff.mp hid) hne
    | cons b u =>
      have hb : pyIsSpace b = false := by
        have hbmem : b ∈ id := by
          rw [← List.mem_reverse, hid]
          exact List.mem_cons_self _ _
        exact class_not_space (hcls b hbmem)
      rw [List.reverse_append, hid, List.cons_append, dropWhile_cons_of_neg hb,
        ← List.cons_append, ← hid, ← List.reverse_append, List.reverse_reverse]

theorem append_ne_nil_left {l r : List Char} (h : l ≠ []) : l ++ r ≠ [] := by
  intro hc
  exact h (List.append_eq_nil.mp hc).1

theorem containsSub_of_sfx {sub t s : List Char} (hts : sfx t s)
    (hl : litHead sub t = true) : containsSub sub s = true := by
  unfold containsSub
  exact firstSome_isSome_of _ hts (if_pos hl)

theorem containsSub_append_left (sub pre id : List Char)
    (h : containsSub sub pre = true) : containsSub sub (pre ++ id) = true := by
  unfold containsSub at h
  obtain ⟨t, ht⟩ := Option.isSome_iff_exists.mp h
  obtain ⟨t', hts, hft⟩ := firstSome_sfx_of_some _ _ _ ht
  have hlit : litHead sub t' = true := by
    by_contra hl
    simp [hl] at hft
  exact containsSub_of_sfx (sfx_append_right hts) (litHead_append_right hlit)

theorem containsSub_pyStrip_le (sub l : List Char)
    (h : containsSub sub (pyStrip l) = true) : containsSub sub l = true := by
  obtain ⟨front, back, hfb⟩ := pyStrip_decomp l
  unfold containsSub at h
  obtain ⟨t, ht⟩ := Option.isSome_iff_exists.mp h
  obtain ⟨t', hts, hft⟩ := firstSome_sfx_of_some _ _ _ ht
  have hlit : litHead sub t' = true := by
    by_contra hl
    simp [hl] at hft
  have hsfx : sfx (t' ++ back) l := by
    obtain ⟨u, hu⟩ := hts
    refine ⟨front ++ u, ?_⟩
    rw [List.append_assoc, ← List.append_assoc u, hu, hfb]
  exact containsSub_of_sfx hsfx (litHead_append_right hlit)

theorem matchVideoAt_append_self (lit id : List Char) (h11 : id.length = 11)
    (hcls : id.all isClassChar = true) : matchVideoAt lit (lit ++ id) = some id := by
  have hd : (lit ++ id).drop lit.length = id := List.drop_left lit id
  have hh : litHead lit (lit ++ id) = true := (litHead_iff _ _).mpr ⟨id, rfl⟩
  have htk : id.take 11 = id := by rw [← h11, List.take_length]
  unfold matchVideoAt
  rw [if_pos hh, hd, htk, if_pos ⟨h11, hcls⟩]

theorem matchVideoAt_none_of_class {lit t : List Char}
    (hbad : ∃ c ∈ lit, isClassChar c = false)
    (hcls : ∀ c ∈ t, isClassChar c = true) : matchVideoAt lit t = none := by
  have hh : litHead lit t = false := by
    cases h : litHead lit t
    · rfl
    · obtain ⟨c, hc, hcf⟩ := hbad
      have := hcls c (pfx_mem ((litHead_iff _ _).mp h) hc)
      rw [this] at hcf
      cases hcf
  unfold matchVideoAt
  rw [hh]
  simp only [Bool.false_eq_true, if_false]

theorem matchVideoAt_litHead_false {lit t : List Char}
    (h : litHead lit t = false) : matchVideoAt lit t = none := by
  unfold matchVideoAt
  rw [h]
  simp only [Bool.false_eq_true, if_false]

theorem firstSome_video_eq (lit pre id : List Char)
    (h11 : id.length = 11) (hcls : ∀ c ∈ id, isClassChar c = true)
    (hbad : ∃ c ∈ lit, isClassChar c = false)
    (hpos : sfx lit pre)
    (hQ : ∀ c ∈ pre.tails, c = [] ∨ c = lit ∨
      (litHead lit c = false ∧ litHead c lit = false)) :
    firstSome (matchVideoAt lit) (pre ++ id) = some id := by
  have huniq : ∀ t r, sfx t (pre ++ id) → matchVideoAt lit t = some r → r = id := by
    intro t r ht hm
    have hlit : litHead lit t = true := by
      cases h : litHead lit t
      · rw [matchVideoAt_litHead_false h] at hm
        cases hm
      · rfl
    rcases sfx_append_cases ht with htid | ⟨c, hcpre, rfl⟩
    · obtain ⟨cc, hcc, hccf⟩ := hbad
      have := hcls cc (sfx_mem htid (pfx_mem ((litHead_iff _ _).mp hlit) hcc))
      rw [this] at hccf
      cases hccf
    · rcases hQ c ((sfx_iff_mem_tails c pre).mp hcpre) with rfl | hceq | ⟨hf1, hf2⟩
      · rw [List.nil_append] at hm
        rw [matchVideoAt_none_of_class hbad hcls] at hm
        cases hm
      · rw [hceq, matchVideoAt_append_self lit id h11 (List.all_eq_true.mpr hcls)] at hm
        injection hm with hm'
        exact hm'.symm
      · rcases pfx_append_or ((litHead_iff _ _).mp hlit) with hp | hp
        · rw [(litHead_iff _ _).mpr hp] at hf1
          cases hf1
        · rw [(litHead_iff _ _).mpr hp] at hf2
          cases hf2
  have hex : matchVideoAt lit (lit ++ id) = some id :=
    matchVideoAt_append_self lit id h11 (List.all_eq_true.mpr hcls)
  have hsome : (firstSome (matchVideoAt lit) (pre ++ id)).isSome = true :=
    firstSome_isSome_of _ (sfx_append_right hpos) hex
  obtain ⟨r, hr⟩ := Option.isSome_iff_exists.mp hsome
  obtain ⟨t, ht, hft⟩ := firstSome_sfx_of_some _ _ _ hr
  rw [hr, huniq t r ht hft]

theorem firstSome_video_none (lit pre id : List Char)
    (hcls : ∀ c ∈ id, isClassChar c = true)
    (hbad : ∃ c ∈ lit, isClassChar c = false)
    (hQ : ∀ c ∈ pre.tails, c = [] ∨
      (litHead lit c = false ∧ litHead c lit = false)) :
    firstSome (matchVideoAt lit) (pre ++ id) = none := by
  apply firstSome_eq_none_of
  intro t ht
  rcases sfx_append_cases ht with htid | ⟨c, hcpre, rfl⟩
  · exact matchVideoAt_none_of_class hbad (fun c hc => hcls c (sfx_mem htid hc))
  · rcases hQ c ((sfx_iff_mem_tails c pre).mp hcpre) with rfl | ⟨hf1, hf2⟩
    · rw [List.nil_append]
      exact matchVideoAt_none_of_class hbad hcls
    · apply matchVideoAt_litHead_false
      cases h : litHead lit (c ++ id)
      · rfl
      · rcases pfx_append_or ((litHead_iff _ _).mp h) with hp | hp
        · rw [(litHead_iff _ _).mpr hp] at hf1
          cases hf1
        · rw [(litHead_iff _ _).mpr hp] at hf2
          cases hf2

theorem matchPlaylistAt_append_self (id : List Char) (hne : id ≠ [])
    (hcls : ∀ c ∈ id, isClassChar c = true) :
    matchPlaylistAt (playlistLit ++ id) = some id := by
  have hd : (playlistLit ++ id).drop playlistLit.length = id := List.drop_left _ _
  have hh : litHead playlistLit (playlistLit ++ id) = true :=
    (litHead_iff _ _).mpr ⟨id, rfl⟩
  have htw : id.takeWhile isClassChar = id := takeWhile_eq_self_of _ hcls
  unfold matchPlaylistAt
  rw [if_pos hh, hd, htw, if_neg hne]

theorem matchPlaylistAt_none_of_class {t : List Char}
    (hcls : ∀ c ∈ t, isClassChar c = true) : matchPlaylistAt t = none := by
  have hbad : ∃ c ∈ playlistLit, isClassChar c = false := by decide
  have hh : litHead playlistLit t = false := by
    cases h : litHead playlistLit t
    · rfl
    · obtain ⟨c, hc, hcf⟩ := hbad
      have := hcls c (pfx_mem ((litHead_iff _ _).mp h) hc)
      rw [this] at hcf
      cases hcf
  unfold matchPlaylistAt
  rw [hh]
  simp only [Bool.false_eq_true, if_false]

theorem matchPlaylistAt_litHead_false {t : List Char}
    (h : litHead playlistLit t = false) : matchPlaylistAt t = none := by
  unfold matchPlaylistAt
  rw [h]
  simp only [Bool.false_eq_true, if_false]

theorem firstSome_playlist_eq (pre id : List Char)
    (hne : id ≠ []) (hcls : ∀ c ∈ id, isClassChar c = true)
    (hpos : sfx playlistLit pre)
    (hQ : ∀ c ∈ pre.tails, c = [] ∨ c = playlistLit ∨
      (litHead playlistLit c = false ∧ litHead c playlistLit = false)) :
    firstSome matchPlaylistAt (pre ++ id) = some id := by
  have huniq : ∀ t r, sfx t (pre ++ id) → matchPlaylistAt t = some r → r = id := by
    intro t r ht hm
    have hlit : litHead playlistLit t = true := by
      cases h : litHead playlistLit t
      · rw [matchPlaylistAt_litHead_false h] at hm
        cases hm
      · rfl
    rcases sfx_append_cases ht with htid | ⟨c, hcpre, rfl⟩
    · rw [matchPlaylistAt_none_of_class (fun c hc => hcls c (sfx_mem htid hc))] at hm
      cases hm
    · rcases hQ c ((sfx_iff_mem_tails c pre).mp hcpre) with rfl | hceq | ⟨hf1, hf2⟩
      · rw [List.nil_append, matchPlaylistAt_none_of_class hcls] at hm
        cases hm
      · rw [hceq, matchPlaylistAt_append_self id hne hcls] at hm
        injection hm with hm'
        exact hm'.symm
      · rcases pfx_append_or ((litHead_iff _ _).mp hlit) with hp | hp
        · rw [(litHead_iff _ _).mpr hp] at hf1
          cases hf1
        · rw [(litHead_iff _ _).mpr hp] at hf2
          cases hf2
  have hex : matchPlaylistAt (playlistLit ++ id) = some id :=
    matchPlaylistAt_append_self id hne hcls
  have hsome : (firstSome matchPlaylistAt (pre ++ id)).isSome = true :=
    firstSome_isSome_of _ (sfx_append_right hpos) hex
  obtain ⟨r, hr⟩ := Option.isSome_iff_exists.mp hsome
  obtain ⟨t, ht, hft⟩ := firstSome_sfx_of_some _ _ _ hr
  rw [hr, huniq t r ht hft]

theorem findFirstPattern_sound (ps : List (List Char)) (s r : List Char)
    (h : findFirstPattern ps s = some r) :
    ∃ p, p ∈ ps ∧ ∃ t, sfx t s ∧ matchVideoAt p t = some r := by
  induction ps with
  | nil => cases h
  | cons p ps ih =>
    unfold findFirstPattern at h
    cases hf : firstSome (matchVideoAt p) s with
    | some r' =>
      rw [hf] at h
      injection h with h'
      obtain ⟨t, ht, hmt⟩ := firstSome_sfx_of_some _ _ _ hf
      exact ⟨p, List.mem_cons_self _ _, t, ht, by rw [hmt, h']⟩
    | none =>
      rw [hf] at h
      obtain ⟨p', hp', rest⟩ := ih h
      exact ⟨p', List.mem_cons_of_mem _ hp', rest⟩

theorem length_ne_nil {id : List Char} (h : id.length = 11) : id ≠ [] := by
  intro hc
  rw [hc] at h
  cases h

theorem validate_watch_url (id : List Char) (h11 : id.length = 11)
    (hcls : ∀ c ∈ id, isClassChar c = true) :
    validate_youtube_url ("https://www.youtube.com/watch?v=".data ++ id) =
      .ok ⟨"video", id, "https://www.youtube.com/watch?v=".data ++ id⟩ := by
  have hstrip := pyStrip_append_of "https://www.youtube.com/watch?v=".data id
    (by decide) (length_ne_nil h11) hcls
  have hhost : hostOk ("https://www.youtube.com/watch?v=".data ++ id) = true := by
    unfold hostOk
    rw [containsSub_append_left _ _ _ (by decide), Bool.true_or]
  have hwatch : firstSome (matchVideoAt watchLit)
      ("https://www.youtube.com/watch?v=".data ++ id) = some id :=
    firstSome_video_eq _ _ _ h11 hcls (by decide)
      ⟨"https://www.".data, by decide⟩ (by decide)
  have hfind : findFirstPattern videoPatterns
      ("https://www.youtube.com/watch?v=".data ++ id) = some id := by
    unfold videoPatterns findFirstPattern
    rw [hwatch]
  unfold validate_youtube_url
  rw [hstrip, if_neg (append_ne_nil_left (by decide)), if_pos hhost, hfind]

theorem validate_be_url (id : List Char) (h11 : id.length = 11)
    (hcls : ∀ c ∈ id, isClassChar c = true) :
    validate_youtube_url ("https://youtu.be/".data ++ id) =
      .ok ⟨"video", id, "https://www.youtube.com/watch?v=".data ++ id⟩ := by
  have hstrip := pyStrip_append_of "https://youtu.be/".data id
    (by decide) (length_ne_nil h11) hcls
  have hhost : hostOk ("https://youtu.be/".data ++ id) = true := by
    unfold hostOk
    rw [containsSub_append_left "youtu.be".data _ _ (by decide), Bool.or_true]
  have h1 : firstSome (matchVideoAt watchLit) ("https://youtu.be/".data ++ id) = none :=
    firstSome_video_none _ _ _ hcls (by decide) (by decide)
  have h2 : firstSome (matchVideoAt beLit) ("https://youtu.be/".data ++ id) = some id :=
    firstSome_video_eq _ _ _ h11 hcls (by decide)
      ⟨"https://".data, by decide⟩ (by decide)
  have hfind : findFirstPattern videoPatterns ("https://youtu.be/".data ++ id) = some id := by
    unfold videoPatterns
    simp only [findFirstPattern, h1, h2]
  unfold validate_youtube_url
  rw [hstrip, if_neg (append_ne_nil_left (by decide)), if_pos hhost, hfind]

theorem validate_shorts_url (id : List Char) (h11 : id.length = 11)
    (hcls : ∀ c ∈ id, isClassChar c = true) :
    validate_youtube_url ("https://www.youtube.com/shorts/".data ++ id) =
      .ok ⟨"video", id, "https://www.youtube.com/watch?v=".data ++ id⟩ := by
  have hstrip := pyStrip_append_of "https://www.youtube.com/shorts/".data id
    (by decide) (length_ne_nil h11) hcls
  have hhost : hostOk ("https://www.youtube.com/shorts/".data ++ id) = true := by
    unfold hostOk
    rw [containsSub_append_left _ _ _ (by decide), Bool.true_or]
  have h1 : firstSome (matchVideoAt watchLit)
      ("https://www.youtube.com/shorts/".data ++ id) = none :=
    firstSome_video_none _ _ _ hcls (by decide) (by decide)
  have h2 : firstSome (matchVideoAt beLit)
      ("https://www.youtube.com/shorts/".data ++ id) = none :=
    firstSome_video_none _ _ _ hcls (by decide) (by decide)
  have h3 : firstSome (matchVideoAt shortsLit)
      ("https://www.youtube.com/shorts/".data ++ id) = some id :=
    firstSome_video_eq _ _ _ h11 hcls (by decide)
      ⟨"https://www.".data, by decide⟩ (by decide)
  have hfind : findFirstPattern videoPatterns
      ("https://www.youtube.com/shorts/".data ++ id) = some id := by
    unfold videoPatterns
    simp only [findFirstPattern, h1, h2, h3]
  unfold validate_youtube_url
  rw [hstrip, if_neg (append_ne_nil_left (by decide)), if_pos hhost, hfind]

theorem validate_playlist_url (id : List Char) (hne : id ≠ [])
    (hcls : ∀ c ∈ id, isClassChar c = true) :
    validate_youtube_url ("https://www.youtube.com/playlist?list=".data ++ id) =
      .ok ⟨"playlist", id, "https://www.youtube.com/playlist?list=".data ++ id⟩ := by
  have hstrip := pyStrip_append_of "https://www.youtube.com/playlist?list=".data id
    (by decide) hne hcls
  have hhost : hostOk ("https://www.youtube.com/playlist?list=".data ++ id) = true := by
    unfold hostOk
    rw [containsSub_append_left _ _ _ (by decide), Bool.true_or]
  have h1 : firstSome (matchVideoAt watchLit)
      ("https://www.youtube.com/playlist?list=".data ++ id) = none :=
    firstSome_video_none _ _ _ hcls (by decide) (by decide)
  have h2 : firstSome (matchVideoAt beLit)
      ("https://www.youtube.com/playlist?list=".data ++ id) = none :=
    firstSome_video_none _ _ _ hcls (by decide) (by decide)
  have h3 : firstSome (matchVideoAt shortsLit)
      ("https://www.youtube.com/playlist?list=".data ++ id) = none :=
    firstSome_video_none _ _ _ hcls (by decide) (by decide)
  have hpl : firstSome matchPlaylistAt
      ("https://www.youtube.com/playlist?list=".data ++ id) = some id :=
    firstSome_playlist_eq _ _ hne hcls ⟨"https://www.".data, by decide⟩ (by decide)
  have hfind : findFirstPattern videoPatterns
      ("https://www.youtube.com/playlist?list=".data ++ id) = none := by
    unfold videoPatterns
    simp only [findFirstPattern, h1, h2, h3]
  unfold validate_youtube_url
  rw [hstrip, if_neg (append_ne_nil_left (by decide)), if_pos hhost, hfind, hpl]

/-- C3: for every 11-character ID over `[A-Za-z0-9_-]`, the standard
watch-URL, the shortened youtu.be URL and the shorts-path URL containing
that ID all validate to kind `video`, that ID, and the identical canonical
URL `https://www.youtube.com/watch?v=<id>`. -/
theorem claim3_three_video_forms (id : List Char) (h11 : id.length = 11)
    (hcls : ∀ c ∈ id, isClassChar c = true) :
    validate_youtube_url ("https://www.youtube.com/watch?v=".data ++ id) =
      .ok ⟨"video", id, "https://www.youtube.com/watch?v=".data ++ id⟩ ∧
    validate_youtube_url ("https://youtu.be/".data ++ id) =
      .ok ⟨"video", id, "https://www.youtube.com/watch?v=".data ++ id⟩ ∧
    validate_youtube_url ("https://www.youtube.com/shorts/".data ++ id) =
      .ok ⟨"video", id, "https://www.youtube.com/watch?v=".data ++ id⟩ :=
  ⟨validate_watch_url id h11 hcls, validate_be_url id h11 hcls,
    validate_shorts_url id h11 hcls⟩

theorem claim3_witness :
    validate_youtube_url ("https://www.youtube.com/watch?v=".data ++ "dQw4w9WgXcQ".data) =
      .ok ⟨"video", "dQw4w9WgXcQ".data,
        "https://www.youtube.com/watch?v=".data ++ "dQw4w9WgXcQ".data⟩ ∧
    validate_youtube_url ("https://youtu.be/".data ++ "dQw4w9WgXcQ".data) =
      .ok ⟨"video", "dQw4w9WgXcQ".data,
        "https://www.youtube.com/watch?v=".data ++ "dQw4w9WgXcQ".data⟩ ∧
    validate_youtube_url ("https://www.youtube.com/shorts/".data ++ "dQw4w9WgXcQ".data) =
      .ok ⟨"video", "dQw4w9WgXcQ".data,
        "https://www.youtube.com/watch?v=".data ++ "dQw4w9WgXcQ".data⟩ :=
  claim3_three_video_forms "dQw4w9WgXcQ".data (by decide) (by decide)

/-- C4: every playlist URL `https://www.youtube.com/playlist?list=<id>`
with a non-empty ID over `[A-Za-z0-9_-]` validates to kind `playlist`,
that ID, and the same URL as canonical form. (Such an input can match no
video-shape pattern — the proof shows each video-pattern search returns
`none` — so the claim's no-video-match proviso is automatically met.) -/
theorem claim4_playlist_form (id : List Char) (hne : id ≠ [])
    (hcls : ∀ c ∈ id, isClassChar c = true) :
    validate_youtube_url ("https://www.youtube.com/playlist?list=".data ++ id) =
      .ok ⟨"playlist", id, "https://www.youtube.com/playlist?list=".data ++ id⟩ :=
  validate_playlist_url id hne hcls

theorem claim4_witness :
    validate_youtube_url
        ("https://www.youtube.com/playlist?list=".data ++ "PLx0sYbCqOb8TBPRdmBHs5Iftvv9TPboYG".data) =
      .ok ⟨"playlist", "PLx0sYbCqOb8TBPRdmBHs5Iftvv9TPboYG".data,
        "https://www.youtube.com/playlist?list=".data ++ "PLx0sYbCqOb8TBPRdmBHs5Iftvv9TPboYG".data⟩ :=
  claim4_playlist_form "PLx0sYbCqOb8TBPRdmBHs5Iftvv9TPboYG".data (by decide) (by decide)

/-- C5: whenever the (stripped) URL matches a video-shape pattern — so
`findFirstPattern` yields an ID — and also matches the playlist pattern,
validation still returns kind `video` with the watch-form canonical URL:
the video patterns are tried first and the first match wins. -/
theorem claim5_video_wins (url vid : List Char)
    (h1 : findFirstPattern videoPatterns (pyStrip url) = some vid)
    (h2 : (firstSome matchPlaylistAt (pyStrip url)).isSome = true) :
    validate_youtube_url url =
      .ok ⟨"video", vid, "https://www.youtube.com/watch?v=".data ++ vid⟩ := by
  obtain ⟨p, hp, t, hts, hm⟩ := findFirstPattern_sound _ _ _ h1
  have hlit : litHead p t = true := by
    cases hl : litHead p t
    · rw [matchVideoAt_litHead_false hl] at hm
      cases hm
    · rfl
  have hhost : hostOk (pyStrip url) = true := by
    unfold videoPatterns at hp
    unfold hostOk
    rcases List.mem_cons.mp hp with rfl | hp'
    · rw [containsSub_of_sfx hts (litHead_trans (by decide) hlit), Bool.true_or]
    · rcases List.mem_cons.mp hp' with rfl | hp''
      · rw [containsSub_of_sfx hts
          (litHead_trans (by decide : litHead "youtu.be".data beLit = true) hlit), Bool.or_true]
      · rcases List.mem_cons.mp hp'' with rfl | hp3
        · rw [containsSub_of_sfx hts (litHead_trans (by decide) hlit), Bool.true_or]
        · cases hp3
  have htne : t ≠ [] := by
    intro hc
    subst hc
    have hpne : p ≠ [] := by
      unfold videoPatterns at hp
      rcases List.mem_cons.mp hp with rfl | hp'
      · decide
      · rcases List.mem_cons.mp hp' with rfl | hp''
        · decide
        · rcases List.mem_cons.mp hp'' with rfl | hp3
          · decide
          · cases hp3
    cases hpc : p with
    | nil => exact hpne hpc
    | cons a l =>
      rw [hpc] at hlit
      cases hlit
  have hsne : pyStrip url ≠ [] := by
    intro hc
    exact htne (sfx_nil (hc ▸ hts))
  unfold validate_youtube_url
  rw [if_neg hsne, if_pos hhost, h1]

theorem claim5_witness :
    validate_youtube_url
        "https://www.youtube.com/watch?v=dQw4w9WgXcQ&youtube.com/playlist?list=PL9tY0BWXOZFy".data =
      .ok ⟨"video", "dQw4w9WgXcQ".data,
        "https://www.youtube.com/watch?v=".data ++ "dQw4w9WgXcQ".data⟩ :=
  claim5_video_wins
    "https://www.youtube.com/watch?v=dQw4w9WgXcQ&youtube.com/playlist?list=PL9tY0BWXOZFy".data
    "dQw4w9WgXcQ".data (by decide) (by decide)

/-- C6 as stated is false: a whitespace-only string such as `" "` is a
non-empty string containing neither `youtube.com` nor `youtu.be`, yet
validation rejects it with the invalid-input error (`"URL must be a
non-empty string"`), not the invalid-source error (`"Not a valid YouTube
URL"`), because the emptiness check strips whitespace first. -/
theorem claim6_counterexample :
    (" ".data ≠ [] ∧
      containsSub "youtube.com".data " ".data = false ∧
      containsSub "youtu.be".data " ".data = false) ∧
    validate_youtube_url " ".data ≠
      .error (Exc.valueError "Not a valid YouTube URL") := by
  refine ⟨by decide, ?_⟩
  intro h
  rw [show validate_youtube_url " ".data =
    .error (Exc.valueError "URL must be a non-empty string") from rfl] at h
  injection h with h'
  injection h' with h''
  exact absurd h'' (by decide)

/-- C6 amended: for every string that is non-empty after stripping
whitespace and does not contain the substring `youtube.com` or `youtu.be`,
validation fails with the invalid-source error `"Not a valid YouTube
URL"` (no ID pattern is ever consulted: the result is fixed by the host
gate alone). -/
theorem claim6_amended (url : List Char)
    (h0 : pyStrip url ≠ [])
    (h1 : containsSub "youtube.com".data url = false)
    (h2 : containsSub "youtu.be".data url = false) :
    validate_youtube_url url = .error (.valueError "Not a valid YouTube URL") := by
  have hh : hostOk (pyStrip url) = false := by
    unfold hostOk
    cases hc1 : containsSub "youtube.com".data (pyStrip url)
    · cases hc2 : containsSub "youtu.be".data (pyStrip url)
      · rfl
      · rw [containsSub_pyStrip_le _ _ hc2] at h2
        cases h2
    · rw [containsSub_pyStrip_le _ _ hc1] at h1
      cases h1
  unfold validate_youtube_url
  rw [if_neg h0, if_neg (by rw [hh]; exact Bool.false_ne_true)]

theorem claim6_witness :
    validate_youtube_url "https://example.org/video".data =
      .error (.valueError "Not a valid YouTube URL") :=
  claim6_amended "https://example.org/video".data (by decide) (by decide) (by decide)

/-- C7: an input that is empty, or whitespace-only so that stripping
leaves nothing, fails validation with the invalid-input error before any
host or pattern check (the result is fixed by the emptiness test alone).
A non-string input cannot be expressed in this typed embedding; the
source's `isinstance` guard rejects it with the same error. -/
theorem claim7_empty_input (url : List Char) (h : pyStrip url = []) :
    validate_youtube_url url =
      .error (.valueError "URL must be a non-empty string") := by
  unfold validate_youtube_url
  rw [if_pos h]

theorem claim7_witness :
    validate_youtube_url "  ".data =
      .error (.valueError "URL must be a non-empty string") :=
  claim7_empty_input "  ".data (by decide)

/-- C1 is the spec's intent but not the code's behavior: on the
invalid-input request `{"url": "nonsense", "mode": "video"}` the handler
answers 500, not 400, because the catch-all in `extract_download_link`
re-raises the validation `ValueError` as a `RuntimeError` (the
collaborator is never consulted: a collaborator that fails when invoked is
used here and its failure message does not appear). -/
theorem claim1_invalid_input_gets_500 :
    download_endpoint collabUnreachable ⟨"nonsense".data, "video".data⟩ =
      .ok (.httpError 500 "Not a valid YouTube URL") := rfl

/-- C2: every failure of `extract_download_link` reaches the handler as a
`RuntimeError` (the catch-all re-wraps every exception, validation
`ValueError`s included), so every response the handler produces is either
the success shape or an HTTP 500 — the 400 branch is unreachable. -/
theorem claim2_all_failures_runtime_500 :
    (∀ (collab : Collab) (url mode : List Char) (e : Exc),
      extract_download_link collab url mode = .error e →
        ∃ m, e = Exc.runtimeError m) ∧
    (∀ (collab : Collab) (req : DownloadRequest) (res : Response),
      download_endpoint collab req = .ok res →
        (∃ t u, res = Response.success t u) ∨
        ∃ m, res = Response.httpError 500 m) := by
  constructor
  · intro collab url mode e h
    unfold extract_download_link rewrap at h
    cases hb : extract_body collab url mode with
    | ok r =>
      rw [hb] at h
      cases h
    | error e' =>
      rw [hb] at h
      injection h with h'
      exact ⟨excMsg e', h'.symm⟩
  · intro collab req res h
    unfold download_endpoint at h
    cases hx : extract_download_link collab req.url (pyLower req.mode) with
    | ok r =>
      rw [hx] at h
      injection h with h'
      exact Or.inl ⟨r.title, r.download_url, h'.symm⟩
    | error e =>
      rw [hx] at h
      unfold extract_download_link rewrap at hx
      cases hb : extract_body collab req.url (pyLower req.mode) with
      | ok r =>
        rw [hb] at hx
        cases hx
      | error e' =>
        rw [hb] at hx
        injection hx with hx'
        rw [← hx'] at h
        have h2 : Except.ok (Response.httpError 500 (excMsg e')) =
            Except.ok res := h
        injection h2 with h'
        exact Or.inr ⟨excMsg e', h'.symm⟩

theorem claim2_witness :
    (∃ m, Exc.runtimeError "collaborator invoked" = Exc.runtimeError m) ∧
    ((∃ t u, (Response.httpError 500 "collaborator invoked" : Response) =
        Response.success t u) ∨
      ∃ m, (Response.httpError 500 "collaborator invoked" : Response) =
        Response.httpError 500 m) :=
  ⟨claim2_all_failures_runtime_500.1 collabUnreachable
      "https://youtu.be/dQw4w9WgXcQ".data "video".data
      (Exc.runtimeError "collaborator invoked") rfl,
    claim2_all_failures_runtime_500.2 collabUnreachable
      ⟨"https://youtu.be/dQw4w9WgXcQ".data, "video".data⟩
      (Response.httpError 500 "collaborator invoked") rfl⟩

/-- C8: when the URL validates but the lowercased mode is neither
`audio` nor `video`, the try-block body stops with the invalid-input
`ValueError` for the bad mode. The result does not depend on the
collaborator argument at all — the collaborator is never invoked. -/
theorem claim8_bad_mode_before_collab (collab : Collab) (url mode : List Char)
    (v : ValidatedUrl)
    (hv : validate_youtube_url url = .ok v)
    (hm1 : pyLower mode ≠ "audio".data) (hm2 : pyLower mode ≠ "video".data) :
    extract_body collab url (pyLower mode) =
      .error (.valueError "Mode must be \x27audio\x27 or \x27video\x27") := by
  unfold extract_body
  rw [hv]
  have ho : optsFor (pyLower mode) = none := by
    unfold optsFor
    rw [if_neg hm1, if_neg hm2]
  rw [ho]

theorem claim8_witness :
    extract_body collabUnreachable "https://youtu.be/dQw4w9WgXcQ".data
        (pyLower "mp3".data) =
      .error (.valueError "Mode must be \x27audio\x27 or \x27video\x27") :=
  claim8_bad_mode_before_collab collabUnreachable
    "https://youtu.be/dQw4w9WgXcQ".data "mp3".data
    ⟨"video", "dQw4w9WgXcQ".data,
      "https://www.youtube.com/watch?v=".data ++ "dQw4w9WgXcQ".data⟩
    rfl (by decide) (by decide)

/-- C9: when the collaborator result is playlist-shaped with a first
entry, `extract_download_link` computes its answer from that first entry
alone — the right-hand side mentions nothing but `first`, so the result is
the same however many further entries `rest` carries. -/
theorem claim9_first_entry_only (collab : Collab) (url mode : List Char)
    (v : ValidatedUrl) (o : YdlOpts) (info : Info)
    (first : Entry) (rest : List Entry)
    (hv : validate_youtube_url url = .ok v)
    (ho : optsFor mode = some o)
    (hc : collab o v.clean_url = .ok info)
    (he : info.entries = some (first :: rest)) :
    extract_download_link collab url mode =
      rewrap (entryResult first.url first.title) := by
  unfold extract_download_link extract_body
  simp only [hv, ho, hc]
  unfold processInfo
  rw [he]

theorem claim9_witness :
    extract_download_link collabTwoEntries
        "https://youtu.be/dQw4w9WgXcQ".data "audio".data =
      rewrap (entryResult (some "http://cdn/a".data) (some "first".data)) :=
  claim9_first_entry_only collabTwoEntries
    "https://youtu.be/dQw4w9WgXcQ".data "audio".data
    ⟨"video", "dQw4w9WgXcQ".data,
      "https://www.youtube.com/watch?v=".data ++ "dQw4w9WgXcQ".data⟩
    audioOpts
    ⟨some [⟨some "http://cdn/a".data, some "first".data⟩,
      ⟨some "http://cdn/b".data, some "second".data⟩], none, none⟩
    ⟨some "http://cdn/a".data, some "first".data⟩
    [⟨some "http://cdn/b".data, some "second".data⟩]
    rfl rfl rfl rfl

theorem entryResult_none_url (t : Option (List Char)) :
    entryResult none t = .error (.runtimeError "Could not extract download URL") := rfl

theorem entryResult_empty_url (t : Option (List Char)) :
    entryResult (some []) t =
      .error (.runtimeError "Could not extract download URL") := rfl

theorem entryResult_some_url {u : List Char} (t : Option (List Char)) (hne : u ≠ []) :
    entryResult (some u) t = .ok ⟨t.getD "video".data, u⟩ := by
  simp only [entryResult]
  rw [if_neg hne]

theorem processInfo_selEntry (info : Info) (e : Entry)
    (h : selEntry info = some e) : processInfo info = entryResult e.url e.title := by
  unfold selEntry at h
  unfold processInfo
  cases hi : info.entries with
  | none =>
    rw [hi] at h
    injection h with h'
    rw [← h']
  | some es =>
    cases es with
    | nil =>
      rw [hi] at h
      cases h
    | cons a t =>
      rw [hi] at h
      injection h with h'
      rw [← h']

/-- C10: with the metadata dict the field reads are taken from (first
entry of a playlist-shaped result, or the result itself), a missing or
empty `url` makes the request fail with the extraction error
`"Could not extract download URL"`, surfaced by the handler as HTTP 500;
and when `url` is present and non-empty but `title` is absent, extraction
succeeds with the default title `"video"`. -/
theorem claim10_missing_url_and_title (collab : Collab) (url mode : List Char)
    (v : ValidatedUrl) (o : YdlOpts) (info : Info) (e : Entry)
    (hv : validate_youtube_url url = .ok v)
    (ho : optsFor (pyLower mode) = some o)
    (hc : collab o v.clean_url = .ok info)
    (hsel : selEntry info = some e) :
    (e.url = none ∨ e.url = some [] →
      download_endpoint collab ⟨url, mode⟩ =
        .ok (.httpError 500 "Could not extract download URL")) ∧
    (∀ u, e.url = some u → u ≠ [] → e.title = none →
      extract_download_link collab url (pyLower mode) = .ok ⟨"video".data, u⟩) := by
  have hbody : extract_body collab url (pyLower mode) = entryResult e.url e.title := by
    unfold extract_body
    simp only [hv, ho, hc]
    exact processInfo_selEntry info e hsel
  constructor
  · intro hu
    have hedl : extract_download_link collab url (pyLower mode) =
        .error (.runtimeError "Could not extract download URL") := by
      unfold extract_download_link
      rw [hbody]
      rcases hu with h | h
      · rw [h, entryResult_none_url]
        rfl
      · rw [h, entryResult_empty_url]
        rfl
    unfold download_endpoint
    rw [show (⟨url, mode⟩ : DownloadRequest).url = url from rfl,
      show (⟨url, mode⟩ : DownloadRequest).mode = mode from rfl, hedl]
  · intro u hu hne ht
    unfold extract_download_link
    rw [hbody, hu, ht, entryResult_some_url none hne]
    rfl

theorem claim10_witness :
    download_endpoint collabBare ⟨"https://youtu.be/dQw4w9WgXcQ".data, "video".data⟩ =
      .ok (.httpError 500 "Could not extract download URL") :=
  (claim10_missing_url_and_title collabBare
      "https://youtu.be/dQw4w9WgXcQ".data "video".data
      ⟨"video", "dQw4w9WgXcQ".data,
        "https://www.youtube.com/watch?v=".data ++ "dQw4w9WgXcQ".data⟩
      videoOpts ⟨none, none, none⟩ ⟨none, none⟩
      rfl rfl rfl rfl).1 (Or.inl rfl)

end YTD
